import Mathlib

/-!
Verification of `format_bridge_bot_output.py` (a WeeChat script that rewrites
messages relayed by a bridge bot so they appear to come from native IRC users).

The script is embedded shallowly:

* Character sequences are `List Char` (Python code is Python 2, one code
  point per character in our model).
* Python library functions used by the script (`str.strip`, `str.split`,
  `str.replace`, slicing, `int(...)`) are given executable Lean models
  (`pyStrip`, `pySplitOn`/`pySplitWS`, `pyReplace`, `pySlice0`, `pyIntE`).
  `pyIsSpace` models the whitespace class on the ASCII whitespace characters
  actually relevant to the script's inputs.
* Python's `re` module is modelled by a small executable regular-expression
  engine (`RE`, `reM`, `pyMatch`) over an abstract syntax of the regex
  features the script's documentation exercises (literals, any-char,
  character classes, concatenation, alternation, greedy star, named groups).
  `re.compile` is treated as an abstract collaborator `compile : List Char → RE`
  supplied as a parameter (compilation of the pattern TEXT is external to the
  script; `re.compile` failures on syntactically invalid patterns are not
  modelled — no claim concerns invalid regex syntax).  `pyMatch` mirrors
  `re.match`: the pattern is applied at the start of the subject only, and a
  prefix match suffices.  The engine uses a generous structural fuel to bound
  backtracking depth; no theorem below depends on fuel exhaustion — all
  theorems either fix the match result by hypothesis or evaluate on concrete
  inputs.
* The WeeChat host API is an external collaborator: the configuration store
  is a lookup function `get : List Char → List Char` returning the empty
  string for unset options (the behaviour of `w.config_get_plugin`), the
  option enumeration of `w.infolist_get` is a list of option names, the
  parse result of `irc_message_parse` is a `Parsed` record, and text printed
  with `w.prnt` is collected in a list of diagnostics.  Python exceptions
  escaping a function are modelled with `Except PyErr`.
-/

/-- Convert a string literal to the character-sequence representation. -/
def chars (s : String) : List Char := s.data

/-- Python whitespace test, restricted to the ASCII whitespace characters
(space, tab, newline, carriage return, vertical tab, form feed). -/
def pyIsSpace (c : Char) : Bool :=
  c = ' ' || c = '\t' || c = '\n' || c = '\r' || c = '\x0b' || c = '\x0c'

/-- Python `str.strip()`: drop leading and trailing whitespace. -/
def pyStrip (s : List Char) : List Char :=
  ((s.dropWhile pyIsSpace).reverse.dropWhile pyIsSpace).reverse

/-- Python `str.split(sep)` for a one-character separator: no run collapsing,
and the empty string splits to one empty field. -/
def pySplitOn (sep : Char) : List Char → List (List Char)
  | [] => [[]]
  | c :: cs =>
    if c = sep then [] :: pySplitOn sep cs
    else
      match pySplitOn sep cs with
      | [] => [[c]]
      | w :: ws => (c :: w) :: ws

/-- Python `str.split()` (no argument): split on whitespace runs, discarding
empty fields.  `acc` is the word currently being accumulated. -/
def pySplitWS : List Char → List Char → List (List Char)
  | [], acc => if acc = [] then [] else [acc]
  | c :: cs, acc =>
    if pyIsSpace c then
      if acc = [] then pySplitWS cs [] else acc :: pySplitWS cs []
    else pySplitWS cs (acc ++ [c])

/-- The script's whitespace-removal idiom (source line 487):
`''.join(s.split())`. -/
def removeWS (s : List Char) : List Char := (pySplitWS s []).flatten

/-- Does the second list start with the first? -/
def leadsWith : List Char → List Char → Bool
  | [], _ => true
  | _ :: _, [] => false
  | a :: as, b :: bs => a = b && leadsWith as bs

/-- Worker for `pyReplace`: scan the subject left to right, replacing each
non-overlapping occurrence of `old` with `new`.  `fuel` is at least the
length of the remaining subject, so the fallback branch is unreachable;
it makes the recursion structural (and hence kernel-computable). -/
def pyReplaceGo (old new : List Char) : Nat → List Char → List Char
  | _, [] => []
  | 0, s => s
  | fuel + 1, c :: cs =>
    if old ≠ [] ∧ leadsWith old (c :: cs) then
      new ++ pyReplaceGo old new fuel (cs.drop (old.length - 1))
    else c :: pyReplaceGo old new fuel cs

/-- Python `str.replace(old, new)`: replace all non-overlapping occurrences,
left to right.  For `old = ""` Python inserts `new` around every character. -/
def pyReplace (s old new : List Char) : List Char :=
  if old = [] then new ++ s.flatMap (fun c => c :: new)
  else pyReplaceGo old new s.length s

/-- Python slicing `s[0:m]` with an integer bound: a negative `m` counts
from the end (clamped at zero). -/
def pySlice0 (s : List Char) (m : Int) : List Char :=
  if m < 0 then s.take ((s.length + m).toNat) else s.take m.toNat

/-- Decimal value of a digit character. -/
def digitVal (c : Char) : Nat := c.toNat - '0'.toNat

/-- Accumulate a decimal numeral. -/
def digitsToNat (ds : List Char) : Nat :=
  ds.foldl (fun a c => a * 10 + digitVal c) 0

/-- Python exceptions that can escape the script's functions. -/
inductive PyErr where
  | valueError
  | indexError
deriving DecidableEq

deriving instance DecidableEq for Except

/-- Python `int(s)` on a string: strip surrounding whitespace, allow one
sign character, then require at least one digit; otherwise raise
`ValueError`. -/
def pyIntE (s : List Char) : Except PyErr Int :=
  let t := pyStrip s
  let p : Int × List Char :=
    match t with
    | '+' :: r => (1, r)
    | '-' :: r => (-1, r)
    | r => (1, r)
  if p.2 ≠ [] ∧ p.2.all (fun c => c.isDigit) then
    Except.ok (p.1 * (digitsToNat p.2 : Int))
  else Except.error PyErr.valueError


/-!  A small regular-expression engine modelling the fragment of Python's
`re` used by the script.  Patterns carry named capture groups; a match
yields the list of captured (name, text) pairs, most recent first, which
models `m.group(name)` returning the text captured by the named group. -/

/-- Abstract syntax of regular expressions (the modelled fragment). -/
inductive RE where
  | eps
  | char (c : Char)
  | any
  | cls (neg : Bool) (cs : List Char)
  | cat (r1 r2 : RE)
  | alt (r1 r2 : RE)
  | star (r : RE)
  | group (n : List Char) (r : RE)
deriving DecidableEq

/-- Size of a regular expression, used to choose the engine's fuel. -/
def reSize : RE → Nat
  | .eps => 1
  | .char _ => 1
  | .any => 1
  | .cls _ _ => 1
  | .cat r1 r2 => reSize r1 + reSize r2 + 1
  | .alt r1 r2 => reSize r1 + reSize r2 + 1
  | .star r => reSize r + 1
  | .group _ r => reSize r + 1

/-- Captured groups: (group name, captured text), most recent first. -/
abbrev Caps : Type := List (List Char × List Char)

/-- Backtracking matcher.  `reM fuel r s k` returns, in Python's
backtracking preference order (alternation: left branch first; star:
greedy, longest repetition first, and a repetition that consumes nothing
ends the loop, as in Python), the list of all `(remaining suffix, captures)`
outcomes of matching `r` against a prefix of `s`.  `fuel` bounds the depth
of the search; every theorem below either fixes the outcome by hypothesis
or evaluates the engine on concrete inputs, so no result depends on the
fuel being exhausted. -/
def reM : Nat → RE → List Char → Caps → List (List Char × Caps)
  | 0, _, _, _ => []
  | _ + 1, .eps, s, k => [(s, k)]
  | _ + 1, .char c, s, k =>
    match s with
    | [] => []
    | x :: xs => if x = c then [(xs, k)] else []
  | _ + 1, .any, s, k =>
    match s with
    | [] => []
    | _ :: xs => [(xs, k)]
  | _ + 1, .cls neg cs, s, k =>
    match s with
    | [] => []
    | x :: xs => if cs.contains x ≠ neg then [(xs, k)] else []
  | fuel + 1, .cat r1 r2, s, k =>
    (reM fuel r1 s k).flatMap (fun p => reM fuel r2 p.1 p.2)
  | fuel + 1, .alt r1 r2, s, k => reM fuel r1 s k ++ reM fuel r2 s k
  | fuel + 1, .star r, s, k =>
    ((reM fuel r s k).flatMap
      (fun p => if p.1.length < s.length then reM fuel (.star r) p.1 p.2 else [])) ++ [(s, k)]
  | fuel + 1, .group n r, s, k =>
    (reM fuel r s k).map (fun p => (p.1, (n, s.take (s.length - p.1.length)) :: p.2))

/-- Fuel ample for matching `r` against `s` (depth of the search tree is
bounded by the pattern size times the subject length). -/
def fuelFor (r : RE) (s : List Char) : Nat :=
  (reSize r + 1) * (s.length + 2)

/-- Model of Python's `re.match(pattern, s)` as used at source line 426:
the pattern is applied at the start of the subject only, a prefix match
suffices, and the first outcome in backtracking order is the match.
`none` models `re.match` returning `None`. -/
def pyMatch (r : RE) (s : List Char) : Option Caps :=
  (reM (fuelFor r s) r s []).head?.map (fun p => p.2)

/-- Whether the pattern's shape occurs at position `k` of the subject:
`re.match` applied to the suffix starting at `k`. -/
def pyMatchAt (r : RE) (s : List Char) (k : Nat) : Option Caps :=
  pyMatch r (s.drop k)

/-- `m.group(name)`: the text captured by the named group.  `none` models
the two Python failure modes (the pattern has no such group: `IndexError`;
the group did not participate: `None`, which the script then crashes on
when concatenating), both of which abort `msg_cb`. -/
def capGet (caps : Caps) (n : List Char) : Option (List Char) :=
  List.lookup n caps

/-- Keys of the three required named capture groups and the substituted
zero-width space / ellipsis characters (source lines 430, 448, 475). -/
def netKey : List Char := chars "network"

def nickKey : List Char := chars "nick"

def textKey : List Char := chars "text"

def zwspChar : Char := '\u200b'

def ellipsisChar : Char := '…'

/-!  Data model: the script's option groups (`settings_namedtuple`, source
lines 215 and 251) and the host's parse of an inbound IRC message
(`irc_message_parse`, source line 394; only the fields the script reads
are modelled). -/

/-- One option group of the script: the `settings_namedtuple` with fields
`name server channel bot_nicks nick_display_max_length regex`.  WeeChat
stores every option value as a string. -/
structure Settings where
  name : List Char
  server : List Char
  channel : List Char
  bot_nicks : List Char
  nick_display_max_length : List Char
  regex : List Char
deriving DecidableEq

/-- The fields of `irc_message_parse` read by `msg_cb`. -/
structure Parsed where
  channel : List Char
  nick : List Char
  host : List Char
  command : List Char
  text : List Char
deriving DecidableEq

/-- `SETTINGS_PREFIX` (source line 184). -/
def settingsPrefStr : List Char := chars "plugins.var.python.format_bridge_bot_output."

/-- The option-name header removed in `parse_config` and
`remove_group_options`: `"python." + SCRIPT_NAME + "."` (source line 203). -/
def parsePrefStr : List Char := chars "python.format_bridge_bot_output."

/-- Build the `settings_namedtuple` for group `g` by reading its five options
from the configuration store (source lines 217-224 and 253-260; the same
construction appears in both `parse_config` and `config_cb`).
`get` models `w.config_get_plugin`, which returns the empty string for an
option that is not set. -/
def mkSettings (g : List Char) (get : List Char → List Char) : Settings :=
  { name := g
    server := get (g ++ chars ".server")
    channel := get (g ++ chars ".channel")
    bot_nicks := get (g ++ chars ".bot_nicks")
    nick_display_max_length := get (g ++ chars ".nick_display_max_length")
    regex := get (g ++ chars ".regex") }

/-- The vacuity test of `config_cb` (source line 263): all of `server`,
`channel`, `bot_nicks` and `regex` are empty (`nick_display_max_length`
is not consulted). -/
def vacuousB (s : Settings) : Bool :=
  s.server.isEmpty && s.channel.isEmpty && s.bot_nicks.isEmpty && s.regex.isEmpty

/-- The rule names of a registry state. -/
def names (l : List Settings) : List (List Char) := l.map (fun s => s.name)

/-- `parse_config` (source lines 192-226): rebuild the whole settings list
from the configuration store.  `optionNames` is the enumeration produced by
`w.infolist_get("option", "", SETTINGS_PREFIX + "*")` (option names of the
form `python.format_bridge_bot_output.<group>.<field>`).  Each name is
stripped of the script header and cut at the first dot to obtain the group
name; group names are de-duplicated (`list(set(...))`; Python's set order
is arbitrary, `List.dedup` is one such order) and one namedtuple per group
is built from the store.  Note: unlike `config_cb`, no vacuity check is
performed here. -/
def parse_config (optionNames : List (List Char)) (get : List Char → List Char) :
    List Settings :=
  let optiongroups := optionNames.map
    (fun n => (pySplitOn '.' (pyReplace n parsePrefStr [])).headD [])
  let groups := optiongroups.dedup
  groups.map (fun g => mkSettings g get)

/-- `config_cb` (source lines 232-274): on a configuration change for
`option` (a full option name `plugins.var.python.format_bridge_bot_output.
<group>.<field>`), drop every settings entry whose name is the changed
group, rebuild that group's namedtuple from the store, and append it unless
it is vacuous.  Accessing `split(".")[1]` (the option name, only used in
commented-out debug output) raises `IndexError` when there is no dot, which
the `Except` models. -/
def config_cb (settingsLst : List Settings) (option : List Char)
    (get : List Char → List Char) : Except PyErr (List Settings) :=
  let gno := pyReplace option settingsPrefStr []
  match pySplitOn '.' gno with
  | g :: _ :: _ =>
    let tmplist := settingsLst.filter (fun item => item.name ≠ g)
    let obj := mkSettings g get
    if vacuousB obj then Except.ok tmplist
    else Except.ok (tmplist ++ [obj])
  | _ => Except.error PyErr.indexError

/-- The origin filter of `msg_cb` (source line 402): the list comprehension
keeping the option groups whose stripped `server` equals the message's
server (`modifier_data`), whose stripped `channel` equals the parsed
channel, and whose comma-separated, individually stripped `bot_nicks`
contain the parsed sender nick. -/
def originFilter (settingsLst : List Settings) (modifierData : List Char)
    (parsed : Parsed) : List Settings :=
  settingsLst.filter (fun item =>
    decide (pyStrip item.server = modifierData) &&
    decide (pyStrip item.channel = parsed.channel) &&
    decide (parsed.nick ∈ (pySplitOn ',' item.bot_nicks).map pyStrip))

/-- Conversion of the stored `nick_display_max_length` string (source lines
417-420): the empty string means `0`, anything else goes through `int(...)`
and can raise `ValueError`. -/
def nickMaxLen (s : List Char) : Except PyErr Int :=
  if s = [] then Except.ok 0 else pyIntE s

/-- Zero-width-space removal (source line 450): `nick.replace(ZWSP, "")`. -/
def stripZWSP (s : List Char) : List Char := pyReplace s [zwspChar] []

/-- The truncation step (source lines 468-479): no truncation when the
configured limit is `0`; otherwise a nick longer than the limit is cut to
`nick[0:limit]` with a single ellipsis appended. -/
def truncStep (nick : List Char) (m : Int) : List Char :=
  if m = 0 then nick
  else if (nick.length : Int) > m then pySlice0 nick m ++ [ellipsisChar]
  else nick

/-- The Identity Formatter (source lines 445-487): strip zero-width spaces,
truncate against the configured limit, then remove all whitespace with
`''.join(... .split())`. -/
def formatNick (nick : List Char) (m : Int) : List Char :=
  removeWS (truncStep (stripZWSP nick) m)

/-!  The ambiguous-match diagnostic (source line 408).  Python's `str` of the
result list prints each namedtuple as
`settings_namedtuple(name='...', server='...', ...)`; quoting is modelled
naively (repr escaping of quotes or backslashes inside field values is not
reproduced).  The `w.prefix("error")` header is host-supplied display
decoration and is not modelled. -/

/-- Tail of the printed form of one namedtuple, after the `name` field. -/
def reprTail (r : Settings) : List Char :=
  chars "\x27, server=\x27" ++ r.server ++
  chars "\x27, channel=\x27" ++ r.channel ++
  chars "\x27, bot_nicks=\x27" ++ r.bot_nicks ++
  chars "\x27, nick_display_max_length=\x27" ++ r.nick_display_max_length ++
  chars "\x27, regex=\x27" ++ r.regex ++ chars "\x27)"

/-- Printed form of one `settings_namedtuple`. -/
def reprSettings (r : Settings) : List Char :=
  chars "settings_namedtuple(name=\x27" ++ r.name ++ reprTail r

/-- Comma-separated printed forms. -/
def joinSep : List Settings → List Char
  | [] => []
  | [r] => reprSettings r
  | r :: s2 :: rest => reprSettings r ++ chars ", " ++ joinSep (s2 :: rest)

/-- Python `str` of the list of matched namedtuples. -/
def reprList (rs : List Settings) : List Char :=
  '[' :: (joinSep rs ++ [']'])

/-- The diagnostic printed when more than one option group matches
(source line 408). -/
def ambigDiag (modifierData : List Char) (parsed : Parsed)
    (result : List Settings) : List Char :=
  chars "format_bridge_bot_output: More than one script option matched the following; server=" ++
  (modifierData ++
  (chars ", channel=" ++
  (parsed.channel ++
  (chars ", nick=" ++
  (parsed.nick ++
  (chars ". Result count: " ++
  ((Nat.repr result.length).data ++
  (chars ". Results: " ++ reprList result))))))))

/-- `msg_cb` (source lines 393-493), the message classification and rewrite
engine.  Inputs: `compile` is the external `re.compile` collaborator;
`settingsLst` the current registry; `modifierData` the server name; `string`
the raw inbound IRC line; `parsed` the host's `irc_message_parse` of
`string`.  The outcome is either a raised Python exception or the returned
line paired with the list of diagnostics printed on the way.

Faithfulness notes, keyed to the source:
* line 402: the origin filter (`originFilter`).
* lines 404-409: zero matches return the line unchanged; more than one
  match prints the diagnostic and returns the line unchanged.  The
  remaining code runs only with exactly one match, so the source's
  `for res in result` loop (lines 413-420), whose last iteration wins,
  reduces to the single element; its `int(...)` conversion can raise.
* line 423: the empty-pattern check (on the pattern string).
* lines 426-428: `re.match` against the parsed text; no match returns the
  line unchanged.
* line 430: the three required named groups are read in the order
  `network`, `nick`, `text`; a missing or non-participating group raises
  (modelled as `PyErr.indexError`).
* lines 450-487: the Identity Formatter (`formatNick`).
* lines 489-493: body composition, the literal replacement of the bot nick
  inside the host field, and reassembly of the outbound line
  (colon, host, command, channel, text, space-separated). -/
def msg_cb (compile : List Char → RE) (settingsLst : List Settings)
    (modifierData : List Char) (string : List Char) (parsed : Parsed) :
    Except PyErr (List Char × List (List Char)) :=
  match originFilter settingsLst modifierData parsed with
  | [] => Except.ok (string, [])
  | r1 :: r2 :: rest =>
    Except.ok (string, [ambigDiag modifierData parsed (r1 :: r2 :: rest)])
  | [res] =>
    match nickMaxLen res.nick_display_max_length with
    | Except.error e => Except.error e
    | Except.ok intNickMaxLength =>
      if res.regex = [] then Except.ok (string, [])
      else
        match pyMatch (compile res.regex) parsed.text with
        | none => Except.ok (string, [])
        | some m =>
          match capGet m netKey with
          | none => Except.error PyErr.indexError
          | some network =>
            match capGet m nickKey with
            | none => Except.error PyErr.indexError
            | some nick =>
              match capGet m textKey with
              | none => Except.error PyErr.indexError
              | some text =>
                let nickformatted := formatNick nick intNickMaxLength
                let text2 := '[' :: (network ++ (']' :: (' ' :: text)))
                let host2 := pyReplace parsed.host parsed.nick nickformatted
                Except.ok
                  (':' :: (host2 ++ (' ' :: (parsed.command ++
                    (' ' :: (parsed.channel ++ (' ' :: text2)))))), [])

/-!  Helper lemmas. -/

/-- `''.join(s.split())` over an accumulated word: flattening the split
words appends the accumulator to the non-whitespace characters. -/
theorem pySplitWS_flatten (s : List Char) :
    ∀ acc, (pySplitWS s acc).flatten = acc ++ s.filter (fun c => !pyIsSpace c) := by
  induction s with
  | nil =>
    intro acc
    by_cases h : acc = [] <;> simp [pySplitWS, h]
  | cons c cs ih =>
    intro acc
    by_cases hc : pyIsSpace c
    · by_cases h : acc = [] <;> simp [pySplitWS, hc, h, ih]
    · simp [pySplitWS, hc, ih (acc ++ [c]), List.filter_cons]

/-- The whitespace-removal idiom equals filtering out whitespace. -/
theorem removeWS_eq_filter (s : List Char) :
    removeWS s = s.filter (fun c => !pyIsSpace c) := by
  simpa using pySplitWS_flatten s []

/-- Substring occurrence: `needle` occurs contiguously inside `hay`. -/
def inStr (needle hay : List Char) : Prop :=
  ∃ a b, hay = a ++ (needle ++ b)

theorem inStr_head (x b : List Char) : inStr x (x ++ b) :=
  ⟨[], b, rfl⟩

theorem inStr_appL (z : List Char) {x y : List Char} (h : inStr x y) :
    inStr x (z ++ y) := by
  obtain ⟨a, b, rfl⟩ := h
  exact ⟨z ++ a, b, by simp⟩

theorem inStr_appR (z : List Char) {x y : List Char} (h : inStr x y) :
    inStr x (y ++ z) := by
  obtain ⟨a, b, rfl⟩ := h
  exact ⟨a, b ++ z, by simp⟩

theorem inStr_trans {x y z : List Char} (hxy : inStr x y) (hyz : inStr y z) :
    inStr x z := by
  obtain ⟨a, b, rfl⟩ := hxy
  obtain ⟨c, d, rfl⟩ := hyz
  exact ⟨c ++ a, b ++ d, by simp⟩

/-- A rule's name occurs in the printed form of its namedtuple. -/
theorem inStr_name_reprSettings (r : Settings) :
    inStr r.name (reprSettings r) :=
  ⟨chars "settings_namedtuple(name=\x27", reprTail r, rfl⟩

/-- A member's printed form occurs in the comma-joined printed forms. -/
theorem inStr_joinSep : ∀ (rs : List Settings), ∀ r ∈ rs, inStr (reprSettings r) (joinSep rs)
  | [], r, hr => absurd hr (List.not_mem_nil r)
  | [x], r, hr => by
    rcases List.mem_singleton.mp hr with rfl
    exact ⟨[], [], by simp [joinSep]⟩
  | x :: y :: t, r, hr => by
    rcases List.mem_cons.mp hr with rfl | hr
    · exact ⟨[], chars ", " ++ joinSep (y :: t), by simp [joinSep]⟩
    · obtain ⟨a, b, hab⟩ := inStr_joinSep (y :: t) r hr
      exact ⟨(reprSettings x ++ chars ", ") ++ a, b, by simp [joinSep, hab]⟩

/-- Occurrence in the joined forms lifts to the printed list. -/
theorem inStr_reprList {x : List Char} {rs : List Settings}
    (h : inStr x (joinSep rs)) : inStr x (reprList rs) := by
  obtain ⟨a, b, hab⟩ := h
  exact ⟨'[' :: a, b ++ [']'], by simp [reprList, hab]⟩

/-!  Claim C1: the successful rewrite path. -/

/-- C1: for every inbound message matching exactly one rule whose pattern
successfully matches the body with the named captures `network`, `nick`
and `text` present, `msg_cb` returns the outbound line whose body is
`"[" + network + "] " + text` and whose sender/host field is the original
host field with the relay account's nick literally replaced by the
finalized display nick, reassembled with the original command and channel
framing fields.  The hypotheses `hn` and `hne` record that execution
reaches the match only after the stored `nick_display_max_length`
converts and the pattern string is non-empty (source order of lines
417-426). -/
theorem c1_rewrite_composition
    (compile : List Char → RE) (settingsLst : List Settings)
    (modifierData string : List Char) (parsed : Parsed) (res : Settings)
    (caps : Caps) (network nick text : List Char) (n : Int)
    (hres : originFilter settingsLst modifierData parsed = [res])
    (hn : nickMaxLen res.nick_display_max_length = Except.ok n)
    (hne : res.regex ≠ [])
    (hm : pyMatch (compile res.regex) parsed.text = some caps)
    (hnet : capGet caps netKey = some network)
    (hnick : capGet caps nickKey = some nick)
    (htext : capGet caps textKey = some text) :
    msg_cb compile settingsLst modifierData string parsed =
      Except.ok
        (':' :: (pyReplace parsed.host parsed.nick (formatNick nick n) ++
          (' ' :: (parsed.command ++ (' ' :: (parsed.channel ++
            (' ' :: ('[' :: (network ++ (']' :: (' ' :: text)))))))))), []) := by
  unfold msg_cb
  rw [hres]
  simp [hn, hne, hm, hnet, hnick, htext]

/-- Word regular expression: the concatenation of its characters. -/
def wordRE (s : List Char) : RE :=
  s.foldr (fun c r => RE.cat (RE.char c) r) RE.eps

/-- The documented example pattern (script header, adapted):
`\((?P<network>(?:slack|discord))\) <(?P<nick>.+?)> (?P<text>.*)`. -/
def c1RegexStr : List Char :=
  chars "\\((?P<network>(?:slack|discord))\\) <(?P<nick>.+?)> (?P<text>.*)"

/-- Compiled form of the example pattern. -/
def c1RE : RE :=
  RE.cat (RE.char '(')
    (RE.cat (RE.group netKey (RE.alt (wordRE (chars "slack")) (wordRE (chars "discord"))))
      (RE.cat (wordRE (chars ") <"))
        (RE.cat (RE.group nickKey (RE.cat RE.any (RE.star RE.any)))
          (RE.cat (wordRE (chars "> "))
            (RE.group textKey (RE.star RE.any))))))

def c1Compile : List Char → RE := fun _ => c1RE

def c1Rule : Settings :=
  { name := chars "MyGroup", server := chars "GroovyIRC", channel := chars "#foobar"
    bot_nicks := chars "Kilroy,SonOfKilroy", nick_display_max_length := chars "20"
    regex := c1RegexStr }

def c1Parsed : Parsed :=
  { channel := chars "#foobar", nick := chars "Kilroy"
    host := chars "Kilroy!~kilroy@1.2.3.4", command := chars "PRIVMSG"
    text := chars "(slack) <Barry> Good afternoon." }

def c1Raw : List Char :=
  chars ":Kilroy!~kilroy@1.2.3.4 PRIVMSG #foobar :(slack) <Barry> Good afternoon."

def c1Caps : Caps :=
  [(textKey, chars "Good afternoon."), (nickKey, chars "Barry"), (netKey, chars "slack")]

/-- Witness for C1: the spec's end-to-end example. -/
theorem c1_rewrite_composition_witness :
    msg_cb c1Compile [c1Rule] (chars "GroovyIRC") c1Raw c1Parsed =
      Except.ok
        (':' :: (pyReplace c1Parsed.host c1Parsed.nick (formatNick (chars "Barry") 20) ++
          (' ' :: (c1Parsed.command ++ (' ' :: (c1Parsed.channel ++
            (' ' :: ('[' :: (chars "slack" ++ (']' :: (' ' :: chars "Good afternoon.")))))))))), []) :=
  c1_rewrite_composition c1Compile [c1Rule] (chars "GroovyIRC") c1Raw c1Parsed c1Rule
    c1Caps (chars "slack") (chars "Barry") (chars "Good afternoon.") 20
    (by decide) (by decide) (by decide) (by decide) (by decide) (by decide) (by decide)

/-!  Claim C2: a matched pattern lacking a required named capture. -/

/-- A pattern shape with a `nick` group but no `network` group. -/
def c2RE : RE := RE.group nickKey (RE.cat RE.any (RE.star RE.any))

def c2Compile : List Char → RE := fun _ => c2RE

def c2Rule : Settings :=
  { name := chars "G", server := chars "srv", channel := chars "#c"
    bot_nicks := chars "Bot", nick_display_max_length := []
    regex := chars "(?P<nick>.+)" }

def c2Parsed : Parsed :=
  { channel := chars "#c", nick := chars "Bot", host := chars "Bot!~b@h"
    command := chars "PRIVMSG", text := chars "hello" }

/-- C2 counterexample: an inbound message matching exactly one rule whose
pattern matches the body but has no `network` capture makes `msg_cb` raise
`IndexError` (source line 430); `msg_cb` itself neither emits a diagnostic
nor returns the message unchanged — contrary to the claim, the error
escapes the function. -/
theorem c2_missing_capture_counterexample :
    originFilter [c2Rule] (chars "srv") c2Parsed = [c2Rule] ∧
    (pyMatch (c2Compile c2Rule.regex) c2Parsed.text).isSome = true ∧
    msg_cb c2Compile [c2Rule] (chars "srv") (chars "raw") c2Parsed =
      Except.error PyErr.indexError := by
  decide

/-- C2 amended: when the single matched rule's pattern matches the body but
one of the required named captures `network`, `nick`, `text` is absent,
`msg_cb` raises `IndexError` (the exception propagates out of the message
callback to the host script engine rather than being handled in-function),
and no rewritten message is produced. -/
theorem c2_missing_capture_amended
    (compile : List Char → RE) (settingsLst : List Settings)
    (modifierData string : List Char) (parsed : Parsed) (res : Settings)
    (caps : Caps) (n : Int)
    (hres : originFilter settingsLst modifierData parsed = [res])
    (hn : nickMaxLen res.nick_display_max_length = Except.ok n)
    (hne : res.regex ≠ [])
    (hm : pyMatch (compile res.regex) parsed.text = some caps)
    (hmiss : capGet caps netKey = none ∨ capGet caps nickKey = none ∨
      capGet caps textKey = none) :
    msg_cb compile settingsLst modifierData string parsed =
      Except.error PyErr.indexError := by
  unfold msg_cb
  rw [hres]
  rcases hmiss with h | h | h
  · simp [hn, hne, hm, h]
  · cases hnet : capGet caps netKey <;> simp [hn, hne, hm, hnet, h]
  · cases hnet : capGet caps netKey <;>
      cases hnick : capGet caps nickKey <;>
        simp [hn, hne, hm, hnet, hnick, h]

/-- Witness for the amended C2. -/
theorem c2_missing_capture_amended_witness :
    msg_cb c2Compile [c2Rule] (chars "srv") (chars "raw") c2Parsed =
      Except.error PyErr.indexError :=
  c2_missing_capture_amended c2Compile [c2Rule] (chars "srv") (chars "raw")
    c2Parsed c2Rule [(nickKey, chars "hello")] 0
    (by decide) (by decide) (by decide) (by decide) (Or.inl (by decide))

/-!  Claim C3: truncation of the display nick. -/

/-- C3 counterexample: for the nick `"ab cdef"` (length 7, no zero-width
spaces) and limit `N = 3`, the truncated intermediate is `"ab …"`, but the
final whitespace-removal step (source line 487) shrinks the finalized
display nick to `"ab…"` of length 3 — not `N + 1 = 4` as the claim states. -/
theorem c3_truncation_counterexample :
    (stripZWSP (chars "ab cdef")).length = 7 ∧
    formatNick (chars "ab cdef") 3 = chars "ab…" ∧
    (formatNick (chars "ab cdef") 3).length = 3 ∧
    (formatNick (chars "ab cdef") 3).length ≠ 3 + 1 := by
  decide

/-- C3 amended: for a limit `N > 0` and a (zero-width-space-stripped) nick
longer than `N`, the finalized display nick is the whitespace-filtered
`N`-character prefix with one ellipsis appended: it ends with the ellipsis
character, its length is at most `N + 1`, and equals `N + 1` exactly when
the kept prefix contains no whitespace.  A nick of length at most `N` only
undergoes zero-width-space stripping and whitespace removal, and `N = 0`
performs no truncation at all. -/
theorem c3_truncation_amended (nick : List Char) (N : Int) (hN : 0 < N) :
    (((stripZWSP nick).length : Int) > N →
      formatNick nick N =
        ((stripZWSP nick).take N.toNat).filter (fun c => !pyIsSpace c) ++ [ellipsisChar] ∧
      (formatNick nick N).getLast? = some ellipsisChar ∧
      (formatNick nick N).length ≤ N.toNat + 1 ∧
      (((stripZWSP nick).take N.toNat).all (fun c => !pyIsSpace c) = true →
        (formatNick nick N).length = N.toNat + 1)) ∧
    (((stripZWSP nick).length : Int) ≤ N → formatNick nick N = removeWS (stripZWSP nick)) ∧
    formatNick nick 0 = removeWS (stripZWSP nick) := by
  have hN0 : N ≠ 0 := by omega
  have hNneg : ¬ N < 0 := by omega
  refine ⟨?_, ?_, ?_⟩
  · intro hlen
    have heq : formatNick nick N =
        ((stripZWSP nick).take N.toNat).filter (fun c => !pyIsSpace c) ++ [ellipsisChar] := by
      rw [formatNick, truncStep, if_neg hN0, if_pos hlen, pySlice0, if_neg hNneg,
        removeWS_eq_filter, List.filter_append]
      simp [ellipsisChar]
      decide
    refine ⟨heq, ?_, ?_, ?_⟩
    · rw [heq, List.getLast?_concat]
    · rw [heq]
      have h1 := List.length_filter_le (fun c => !pyIsSpace c) ((stripZWSP nick).take N.toNat)
      have h2 : ((stripZWSP nick).take N.toNat).length ≤ N.toNat := by
        rw [List.length_take]
        omega
      simp only [List.length_append, List.length_cons, List.length_nil]
      omega
    · intro hall
      rw [heq, List.filter_eq_self.mpr]
      · have h2 : ((stripZWSP nick).take N.toNat).length = N.toNat := by
          rw [List.length_take]
          omega
        simp [h2]
      · intro a ha
        exact (List.all_eq_true.mp hall) a ha
  · intro hle
    rw [formatNick, truncStep, if_neg hN0, if_neg (by omega)]
  · rw [formatNick, truncStep, if_pos rfl]

/-- Witness for the amended C3: the spec's truncation example
(nick `"Charles"`, limit 5, result `"Charl…"` of length 6). -/
theorem c3_truncation_amended_witness :
    formatNick (chars "Charles") 5 =
      ((stripZWSP (chars "Charles")).take (Int.toNat 5)).filter (fun c => !pyIsSpace c) ++
        [ellipsisChar] ∧
    (formatNick (chars "Charles") 5).length = (Int.toNat 5) + 1 :=
  ⟨((c3_truncation_amended (chars "Charles") 5 (by decide)).1 (by decide)).1,
   ((c3_truncation_amended (chars "Charles") 5 (by decide)).1 (by decide)).2.2.2 (by decide)⟩

/-!  Claim C4: ambiguous matches. -/

/-- C4: when two or more rules match the message's origin, `msg_cb` returns
the inbound line unchanged (no rule is picked as winner) and prints one
diagnostic in which the server, the channel, the sender nick and the name
of every conflicting rule occur. -/
theorem c4_ambiguous_passthrough
    (compile : List Char → RE) (settingsLst : List Settings)
    (modifierData string : List Char) (parsed : Parsed)
    (r1 r2 : Settings) (rest : List Settings)
    (hres : originFilter settingsLst modifierData parsed = r1 :: r2 :: rest) :
    msg_cb compile settingsLst modifierData string parsed =
      Except.ok (string, [ambigDiag modifierData parsed (r1 :: r2 :: rest)]) ∧
    inStr modifierData (ambigDiag modifierData parsed (r1 :: r2 :: rest)) ∧
    inStr parsed.channel (ambigDiag modifierData parsed (r1 :: r2 :: rest)) ∧
    inStr parsed.nick (ambigDiag modifierData parsed (r1 :: r2 :: rest)) ∧
    ∀ r ∈ r1 :: r2 :: rest,
      inStr r.name (ambigDiag modifierData parsed (r1 :: r2 :: rest)) := by
  refine ⟨?_, ?_, ?_, ?_, ?_⟩
  · unfold msg_cb
    rw [hres]
  · simp only [ambigDiag]
    exact inStr_appL _ (inStr_head _ _)
  · simp only [ambigDiag]
    exact inStr_appL _ (inStr_appL _ (inStr_appL _ (inStr_head _ _)))
  · simp only [ambigDiag]
    exact inStr_appL _ (inStr_appL _ (inStr_appL _ (inStr_appL _ (inStr_appL _
      (inStr_head _ _)))))
  · intro r hr
    simp only [ambigDiag]
    refine inStr_appL _ (inStr_appL _ (inStr_appL _ (inStr_appL _ (inStr_appL _
      (inStr_appL _ (inStr_appL _ (inStr_appL _ (inStr_appL _ ?_))))))))
    exact inStr_trans (inStr_name_reprSettings r)
      (inStr_reprList (inStr_joinSep (r1 :: r2 :: rest) r hr))

def c4RuleA : Settings :=
  { name := chars "RuleA", server := chars "srv", channel := chars "#c"
    bot_nicks := chars "Bot", nick_display_max_length := chars "20"
    regex := chars "p" }

def c4RuleB : Settings :=
  { name := chars "RuleB", server := chars "srv", channel := chars "#c"
    bot_nicks := chars "Bot,Other", nick_display_max_length := []
    regex := [] }

def c4Parsed : Parsed :=
  { channel := chars "#c", nick := chars "Bot", host := chars "Bot!~b@h"
    command := chars "PRIVMSG", text := chars "hello" }

/-- Witness for C4: two rules scoped to the same origin. -/
theorem c4_ambiguous_passthrough_witness :
    msg_cb (fun _ => RE.eps) [c4RuleA, c4RuleB] (chars "srv") (chars "raw") c4Parsed =
      Except.ok (chars "raw", [ambigDiag (chars "srv") c4Parsed [c4RuleA, c4RuleB]]) ∧
    inStr c4RuleA.name (ambigDiag (chars "srv") c4Parsed [c4RuleA, c4RuleB]) ∧
    inStr c4RuleB.name (ambigDiag (chars "srv") c4Parsed [c4RuleA, c4RuleB]) :=
  ⟨(c4_ambiguous_passthrough (fun _ => RE.eps) [c4RuleA, c4RuleB] (chars "srv")
      (chars "raw") c4Parsed c4RuleA c4RuleB [] (by decide)).1,
   (c4_ambiguous_passthrough (fun _ => RE.eps) [c4RuleA, c4RuleB] (chars "srv")
      (chars "raw") c4Parsed c4RuleA c4RuleB [] (by decide)).2.2.2.2 c4RuleA (by decide),
   (c4_ambiguous_passthrough (fun _ => RE.eps) [c4RuleA, c4RuleB] (chars "srv")
      (chars "raw") c4Parsed c4RuleA c4RuleB [] (by decide)).2.2.2.2 c4RuleB (by decide)⟩

/-!  Claim C5: pass-through outcomes. -/

def c5Rule : Settings :=
  { name := chars "G", server := chars "srv", channel := chars "#c"
    bot_nicks := chars "Bot", nick_display_max_length := chars "x"
    regex := [] }

def c5Parsed : Parsed :=
  { channel := chars "#c", nick := chars "Bot", host := chars "Bot!~b@h"
    command := chars "PRIVMSG", text := chars "hello" }

/-- C5 counterexample: a message matching exactly one rule whose pattern is
the empty string is NOT always passed through unchanged: the conversion
`int(res.nick_display_max_length)` (source line 418) runs before the
empty-pattern check (line 423), so a rule whose stored
`nick_display_max_length` is non-numeric makes `msg_cb` raise `ValueError`
instead of returning the message. -/
theorem c5_passthrough_counterexample :
    originFilter [c5Rule] (chars "srv") c5Parsed = [c5Rule] ∧
    c5Rule.regex = [] ∧
    msg_cb (fun _ => RE.eps) [c5Rule] (chars "srv") (chars "raw") c5Parsed =
      Except.error PyErr.valueError := by
  decide

/-- C5 amended: pass-through holds as claimed in all three situations,
provided (for the single-match situations) the matched rule's stored
`nick_display_max_length` is empty or convertible by `int(...)`: zero
matching rules, exactly one matching rule with an empty pattern, and
exactly one matching rule whose pattern does not match the body all return
the inbound line unchanged with no diagnostic. -/
theorem c5_passthrough_amended
    (compile : List Char → RE) (settingsLst : List Settings)
    (modifierData string : List Char) (parsed : Parsed) :
    (originFilter settingsLst modifierData parsed = [] →
      msg_cb compile settingsLst modifierData string parsed = Except.ok (string, [])) ∧
    (∀ res : Settings, ∀ n : Int,
      originFilter settingsLst modifierData parsed = [res] →
      nickMaxLen res.nick_display_max_length = Except.ok n →
      res.regex = [] →
      msg_cb compile settingsLst modifierData string parsed = Except.ok (string, [])) ∧
    (∀ res : Settings, ∀ n : Int,
      originFilter settingsLst modifierData parsed = [res] →
      nickMaxLen res.nick_display_max_length = Except.ok n →
      pyMatch (compile res.regex) parsed.text = none →
      msg_cb compile settingsLst modifierData string parsed = Except.ok (string, [])) := by
  refine ⟨?_, ?_, ?_⟩
  · intro h
    unfold msg_cb
    rw [h]
  · intro res n h hn hreg
    unfold msg_cb
    rw [h]
    simp [hn, hreg]
  · intro res n h hn hm
    unfold msg_cb
    rw [h]
    by_cases hreg : res.regex = [] <;> simp [hn, hreg, hm]

def c5RuleB : Settings :=
  { name := chars "G", server := chars "srv", channel := chars "#c"
    bot_nicks := chars "Bot", nick_display_max_length := chars "20"
    regex := chars "a" }

/-- Witness for the amended C5: all three pass-through situations on
concrete inputs. -/
theorem c5_passthrough_amended_witness :
    msg_cb (fun _ => RE.eps) [] (chars "srv") (chars "raw") c5Parsed =
      Except.ok (chars "raw", []) ∧
    msg_cb (fun _ => RE.eps)
      [{ c5Rule with nick_display_max_length := chars "20" }]
      (chars "srv") (chars "raw") c5Parsed = Except.ok (chars "raw", []) ∧
    msg_cb (fun _ => RE.char 'a') [c5RuleB] (chars "srv") (chars "raw") c5Parsed =
      Except.ok (chars "raw", []) :=
  ⟨(c5_passthrough_amended (fun _ => RE.eps) [] (chars "srv") (chars "raw") c5Parsed).1
     (by decide),
   (c5_passthrough_amended (fun _ => RE.eps)
      [{ c5Rule with nick_display_max_length := chars "20" }]
      (chars "srv") (chars "raw") c5Parsed).2.1
     { c5Rule with nick_display_max_length := chars "20" } 20 (by decide) (by decide)
     (by decide),
   (c5_passthrough_amended (fun _ => RE.char 'a') [c5RuleB] (chars "srv") (chars "raw")
      c5Parsed).2.2 c5RuleB 20 (by decide) (by decide) (by decide)⟩

/-!  Claim C6: vacuous rules. -/

def c6OptNames : List (List Char) :=
  [chars "python.format_bridge_bot_output.G.nick_display_max_length"]

def c6Get : List Char → List Char :=
  fun k => if k = chars "G.nick_display_max_length" then chars "5" else []

/-- C6 counterexample: `parse_config` (the `loadAll` rebuild) performs no
vacuity check (source lines 214-226, unlike `config_cb` line 263).  A group
present in the store only through its `nick_display_max_length` option is
rebuilt as a rule whose `server`, `channel`, `bot_nicks` and `regex` are
all empty — a vacuous rule retained in the registry. -/
theorem c6_vacuous_counterexample :
    parse_config c6OptNames c6Get =
      [{ name := chars "G", server := [], channel := [], bot_nicks := []
         nick_display_max_length := chars "5", regex := [] }] ∧
    vacuousB
      { name := chars "G", server := [], channel := [], bot_nicks := []
        nick_display_max_length := chars "5", regex := [] } = true := by
  decide

/-- C6 amended: the single-change update `config_cb` never introduces a
vacuous rule — any vacuous rule present after `config_cb` was already in
the registry before (the updated group's rebuilt entry is dropped when
vacuous); the `loadAll` rebuild `parse_config`, by contrast, does not
discard vacuous rules. -/
theorem c6_vacuous_amended
    (pre : List Settings) (option : List Char) (get : List Char → List Char)
    (post : List Settings) (h : config_cb pre option get = Except.ok post) :
    ∀ r ∈ post, vacuousB r = true → r ∈ pre := by
  intro r hr hv
  simp only [config_cb] at h
  rcases hsplit : pySplitOn '.' (pyReplace option settingsPrefStr []) with _ | ⟨g, rest⟩
  · rw [hsplit] at h
    simp at h
  · rcases rest with _ | ⟨o, rest2⟩
    · rw [hsplit] at h
      simp at h
    · rw [hsplit] at h
      by_cases hvac : vacuousB (mkSettings g get)
      · simp only [hvac, if_true, Except.ok.injEq] at h
        subst h
        exact (List.mem_filter.mp hr).1
      · simp only [hvac, if_false, Bool.false_eq_true, Except.ok.injEq] at h
        subst h
        rcases List.mem_append.mp hr with hr2 | hr2
        · exact (List.mem_filter.mp hr2).1
        · rcases List.mem_singleton.mp hr2 with rfl
          exact absurd hv (by simp [hvac])

def c6Pre : List Settings :=
  [{ name := chars "H", server := [], channel := [], bot_nicks := []
     nick_display_max_length := chars "7", regex := [] }]

def c6Opt : List Char := chars "plugins.var.python.format_bridge_bot_output.G.server"

def c6WGet : List Char → List Char :=
  fun k => if k = chars "G.server" then chars "s" else []

def c6Post : List Settings :=
  [{ name := chars "H", server := [], channel := [], bot_nicks := []
     nick_display_max_length := chars "7", regex := [] },
   { name := chars "G", server := chars "s", channel := [], bot_nicks := []
     nick_display_max_length := [], regex := [] }]

/-- Witness for the amended C6: the one vacuous rule present after a
`config_cb` update was already present beforehand. -/
theorem c6_vacuous_amended_witness :
    ({ name := chars "H", server := [], channel := [], bot_nicks := []
       nick_display_max_length := chars "7", regex := [] } : Settings) ∈ c6Pre :=
  c6_vacuous_amended c6Pre c6Opt c6WGet c6Post (by decide)
    { name := chars "H", server := [], channel := [], bot_nicks := []
      nick_display_max_length := chars "7", regex := [] }
    (by decide) (by decide)

/-!  Claim C7: the Origin Matcher. -/

/-- C7: the origin filter returns exactly the rules whose stripped `server`
equals the message's server, whose stripped `channel` equals the message's
channel, and whose comma-split, individually stripped `bot_nicks` tokens
contain the sender nick (the right-hand side spells out the spec's
characterization; the left-hand side is the source's list comprehension). -/
theorem c7_origin_matcher (settingsLst : List Settings) (modifierData : List Char)
    (parsed : Parsed) (r : Settings) :
    r ∈ originFilter settingsLst modifierData parsed ↔
      r ∈ settingsLst ∧ pyStrip r.server = modifierData ∧
        pyStrip r.channel = parsed.channel ∧
        parsed.nick ∈ (pySplitOn ',' r.bot_nicks).map pyStrip := by
  simp [originFilter, List.mem_filter, and_assoc]

def c7Rule : Settings :=
  { name := chars "W", server := chars " srv ", channel := chars "#c"
    bot_nicks := chars "a, Bot ,c", nick_display_max_length := chars "9"
    regex := chars "p" }

def c7Parsed : Parsed :=
  { channel := chars "#c", nick := chars "Bot", host := chars "h"
    command := chars "PRIVMSG", text := chars "t" }

/-- Witness for C7: a rule with surrounding whitespace in `server` and in a
`bot_nicks` token is matched after stripping. -/
theorem c7_origin_matcher_witness :
    c7Rule ∈ originFilter [c7Rule] (chars "srv") c7Parsed :=
  (c7_origin_matcher [c7Rule] (chars "srv") c7Parsed c7Rule).mpr (by decide)

/-!  Claim C8: the finalized display nick has no whitespace. -/

/-- C8: the finalized display nick produced by the Identity Formatter
contains no whitespace character (in particular no space), for every input
nick and every configured limit: the final step filters out every
whitespace character. -/
theorem c8_no_whitespace (nick : List Char) (m : Int) :
    ∀ c ∈ formatNick nick m, pyIsSpace c = false := by
  intro c hc
  rw [formatNick, removeWS_eq_filter] at hc
  simpa using (List.mem_filter.mp hc).2

/-- Witness for C8: the space of `"a B"` is gone. -/
theorem c8_no_whitespace_witness : pyIsSpace 'B' = false :=
  c8_no_whitespace (chars "a B") 0 'B' (by decide)

/-!  Claim C9: name uniqueness in the registry. -/

/-- C9: after a full `parse_config` rebuild the registry holds at most one
rule per name (group names are de-duplicated before rules are built), and a
`config_cb` update preserves name uniqueness: the updated name's previous
entries are dropped before the rebuilt entry is appended. -/
theorem c9_unique_names :
    (∀ (optionNames : List (List Char)) (get : List Char → List Char),
        (names (parse_config optionNames get)).Nodup) ∧
    (∀ (pre : List Settings) (option : List Char) (get : List Char → List Char)
        (post : List Settings),
        config_cb pre option get = Except.ok post →
        (names pre).Nodup → (names post).Nodup) := by
  constructor
  · intro optionNames get
    have h : names (parse_config optionNames get) =
        (optionNames.map
          (fun n => (pySplitOn '.' (pyReplace n parsePrefStr [])).headD [])).dedup := by
      simp [names, parse_config, mkSettings, List.map_map, Function.comp_def]
    rw [h]
    exact List.nodup_dedup _
  · intro pre option get post h hpre
    simp only [config_cb] at h
    rcases hsplit : pySplitOn '.' (pyReplace option settingsPrefStr []) with _ | ⟨g, rest⟩
    · rw [hsplit] at h
      simp at h
    · rcases rest with _ | ⟨o, rest2⟩
      · rw [hsplit] at h
        simp at h
      · rw [hsplit] at h
        have hsub : (names (pre.filter (fun item => item.name ≠ g))).Sublist (names pre) := by
          simp only [names]
          exact (List.filter_sublist pre).map (fun s => s.name)
        by_cases hvac : vacuousB (mkSettings g get) = true
        · simp only [hvac, if_true, Except.ok.injEq] at h
          subst h
          exact hpre.sublist hsub
        · simp only [hvac, if_false, Bool.false_eq_true, Except.ok.injEq] at h
          subst h
          simp only [names, List.map_append]
          refine List.Nodup.append (hpre.sublist hsub) (by simp) ?_
          intro x hx hx2
          simp only [names, List.mem_map, List.mem_filter] at hx
          obtain ⟨s, ⟨_, hneq⟩, rfl⟩ := hx
          simp only [List.map_cons, List.map_nil, List.mem_singleton, mkSettings] at hx2
          exact absurd hx2 (by simpa using hneq)

def c9Names : List (List Char) :=
  [chars "python.format_bridge_bot_output.G.server",
   chars "python.format_bridge_bot_output.G.regex",
   chars "python.format_bridge_bot_output.H.server"]

def c9Get : List Char → List Char :=
  fun k => if k = chars "G.server" then chars "s" else []

def c9Pre : List Settings :=
  [{ name := chars "H", server := chars "hs", channel := [], bot_nicks := []
     nick_display_max_length := [], regex := [] }]

def c9Opt : List Char := chars "plugins.var.python.format_bridge_bot_output.G.server"

def c9Post : List Settings :=
  [{ name := chars "H", server := chars "hs", channel := [], bot_nicks := []
     nick_display_max_length := [], regex := [] },
   { name := chars "G", server := chars "s", channel := [], bot_nicks := []
     nick_display_max_length := [], regex := [] }]

/-- Witness for C9: uniqueness after a rebuild over two groups and after an
update adding a new group. -/
theorem c9_unique_names_witness :
    (names (parse_config c9Names c9Get)).Nodup ∧ (names c9Post).Nodup :=
  ⟨c9_unique_names.1 c9Names c9Get,
   c9_unique_names.2 c9Pre c9Opt c9Get c9Post (by decide) (by decide)⟩

/-!  Claim C10: matching is anchored at the start of the body. -/

/-- C10: extraction uses `re.match` (source line 426), which applies the
pattern at the first character of the body only.  If the pattern does not
match at position 0 — even though its shape occurs at some later position
`k > 0` — `msg_cb` passes the message through unchanged.  (The conversion
and non-empty-pattern hypotheses record that execution reaches the
matching step.) -/
theorem c10_anchored_match
    (compile : List Char → RE) (settingsLst : List Settings)
    (modifierData string : List Char) (parsed : Parsed) (res : Settings)
    (n : Int) (r : RE) (k : Nat)
    (hres : originFilter settingsLst modifierData parsed = [res])
    (hcomp : compile res.regex = r)
    (hne : res.regex ≠ [])
    (hn : nickMaxLen res.nick_display_max_length = Except.ok n)
    (hk : 0 < k)
    (hlater : (pyMatchAt r parsed.text k).isSome = true)
    (h0 : pyMatch r parsed.text = none) :
    msg_cb compile settingsLst modifierData string parsed = Except.ok (string, []) := by
  unfold msg_cb
  rw [hres]
  simp [hn, hne, hcomp, h0]

def c10RE : RE := RE.group netKey (RE.char 'a')

def c10Rule : Settings :=
  { name := chars "G", server := chars "srv", channel := chars "#c"
    bot_nicks := chars "Bot", nick_display_max_length := []
    regex := chars "a" }

def c10Parsed : Parsed :=
  { channel := chars "#c", nick := chars "Bot", host := chars "Bot!~b@h"
    command := chars "PRIVMSG", text := chars "xa" }

/-- Witness for C10: the anchorless pattern shape occurs at position 1 of
`"xa"` but not at position 0, and the message passes through unchanged. -/
theorem c10_anchored_match_witness :
    msg_cb (fun _ => c10RE) [c10Rule] (chars "srv") (chars "raw") c10Parsed =
      Except.ok (chars "raw", []) :=
  c10_anchored_match (fun _ => c10RE) [c10Rule] (chars "srv") (chars "raw")
    c10Parsed c10Rule 0 c10RE 1
    (by decide) rfl (by decide) (by decide) (by decide) (by decide) (by decide)
